import Mathlib

/-!
# Verification of the My-Trader bot (`run_bot.py`)

Shallow embedding of the decision / portfolio-mutation logic of
`run_bot.py`:

* the command processor `check_telegram_commands` (Telegram `/BUY`,
  `/SELL`, `/RESET` commands mutating the persisted portfolio),
* the market-regime gate (`nifty` close vs. its 200-session SMA),
* the per-holding decision chain (the `for h in holdings` loop),
* the momentum ranking (`candidates.sort(key=score, reverse=True)`) and
  the buy-signal selection loop.

External I/O (Telegram transport, yfinance downloads, git) is modelled by
passing the delivered data in as explicit arguments.  Python exceptions
that escape the script are modelled with `Except`: `Except.error` means
the run aborts at that point.  Prices are modelled as rationals; the
claims below only depend on ordering and averaging, not on binary
floating point rounding.
-/

set_option maxRecDepth 8000

deriving instance DecidableEq for Except

namespace MyTrader

/-- Constant `MAX_POSITIONS = 2` from the configuration block. -/
def MAX_POSITIONS : Nat := 2

/-- One element of `portfolio['holdings']`: `{"symbol": ..., "shares": ...}`.
`shares` comes from Python `int(...)`, hence `Int`. -/
structure Position where
  symbol : String
  shares : Int
deriving DecidableEq, Repr

/-- The persisted `portfolio.json` record: `cash`, `holdings`,
`last_update_id` (the spec's `cursor`). -/
structure Portfolio where
  cash : Int
  holdings : List Position
  last_update_id : Int
deriving DecidableEq, Repr

/-- One Telegram update as consumed by the loop in
`check_telegram_commands`: its `update_id` (the sequence number) and the
message text. -/
structure Update where
  update_id : Int
  text : String
deriving DecidableEq, Repr

/-- An outbound `send_telegram` notification emitted by the command
processor, tagged by which mutation produced it (the exact message text
is constant formatting around these fields). -/
inductive Note where
  | buy (symbol : String) (shares : Int)
  | sell (symbol : String)
  | reset
deriving DecidableEq, Repr

/-! ## Python string helpers

`message = item['message']['text'].strip().upper()` and
`parts = message.split()`.  Lean's built-in `String.trim`/`String.split`
do not reduce inside the kernel, so the same operations are implemented
here directly over the character list. -/

/-- Python `str.strip()`: drop leading and trailing whitespace. -/
def pyStripChars (cs : List Char) : List Char :=
  ((cs.dropWhile Char.isWhitespace).reverse.dropWhile Char.isWhitespace).reverse

/-- Normalization `text.strip().upper()` applied to a message, as a
character list. -/
def normalizeMsg (s : String) : List Char :=
  (pyStripChars s.toList).map Char.toUpper

/-- Helper for Python `str.split()`: accumulates the current word
(reversed) and splits on runs of whitespace, discarding empty pieces. -/
def pyWordsAux : List Char → List Char → List String
  | [], acc => if acc.isEmpty then [] else [String.mk acc.reverse]
  | c :: cs, acc =>
    if c.isWhitespace then
      if acc.isEmpty then pyWordsAux cs []
      else String.mk acc.reverse :: pyWordsAux cs []
    else pyWordsAux cs (c :: acc)

/-- Python `str.split()` (no argument): whitespace-delimited tokens. -/
def pySplit (cs : List Char) : List String := pyWordsAux cs []

/-- Digits of a Python integer literal after the first digit: decimal
digits, single underscores allowed between digits. -/
def pyDigitsAux : Nat → List Char → Option Nat
  | acc, [] => some acc
  | acc, c :: cs =>
    if c.isDigit then pyDigitsAux (10 * acc + (c.toNat - 48)) cs
    else if c = '_' then
      match cs with
      | d :: cs2 =>
        if d.isDigit then pyDigitsAux (10 * acc + (d.toNat - 48)) cs2 else none
      | [] => none
    else none

/-- Unsigned part of Python `int(str)`: must start with a digit. -/
def pyNatParse : List Char → Option Nat
  | [] => none
  | c :: cs => if c.isDigit then pyDigitsAux (c.toNat - 48) cs else none

/-- Python `int(str)` on a whitespace-free token: optional sign, then
digits; `none` models the `ValueError` that `int` raises otherwise. -/
def pyIntParse (s : String) : Option Int :=
  match s.toList with
  | '+' :: cs => (pyNatParse cs).map (fun n => (n : Int))
  | '-' :: cs => (pyNatParse cs).map (fun n => -(n : Int))
  | cs => (pyNatParse cs).map (fun n => (n : Int))

/-! ## Command processor (`check_telegram_commands`, lines 41–87)

The loop body for one update.  Branches mirror the source exactly:

* `if message.startswith('/BUY')`: with `len(parts) >= 3` the position
  is appended and a notification sent; `int(parts[2])` raising
  `ValueError` is an uncaught exception, modelled as `Except.error`
  (the whole run dies; the error value carries the notifications already
  sent).  With fewer than 3 tokens nothing happens.
* `elif message.startswith('/SELL')`: with `len(parts) >= 2` every
  position with the given symbol is removed; a notification is sent only
  if the holdings actually shrank.
* `elif message == '/RESET'`: clears holdings unconditionally.
* anything else: no effect.

In every non-raising branch `portfolio['last_update_id'] = update_id`
runs at the end of the loop body.  Nothing in the loop compares
`update_id` with the stored cursor: replay protection comes only from
the `offset=last_id+1` fetch parameter. -/
/-- Character list of the `'/BUY'` prefix tested by `startswith`. -/
def buyCmd : List Char := "/BUY".toList

/-- Character list of the `'/SELL'` prefix tested by `startswith`. -/
def sellCmd : List Char := "/SELL".toList

/-- Character list of the exact `'/RESET'` message. -/
def resetCmd : List Char := "/RESET".toList

def processUpdate (p : Portfolio) (changed : Bool) (notes : List Note)
    (item : Update) : Except (List Note) (Portfolio × Bool × List Note) :=
  if buyCmd <+: normalizeMsg item.text then
    match pySplit (normalizeMsg item.text) with
    | _ :: symbol :: sharesTok :: _ =>
      match pyIntParse sharesTok with
      | some shares =>
        Except.ok ({ p with
                     holdings := p.holdings ++ [⟨symbol, shares⟩],
                     last_update_id := item.update_id }, true,
                   notes ++ [Note.buy symbol shares])
      | none => Except.error notes
    | _ => Except.ok ({ p with last_update_id := item.update_id }, changed, notes)
  else if sellCmd <+: normalizeMsg item.text then
    match pySplit (normalizeMsg item.text) with
    | _ :: symbol :: _ =>
      if (p.holdings.filter (fun h => h.symbol != symbol)).length < p.holdings.length then
        Except.ok ({ p with
                     holdings := p.holdings.filter (fun h => h.symbol != symbol),
                     last_update_id := item.update_id }, true,
                   notes ++ [Note.sell symbol])
      else Except.ok ({ p with last_update_id := item.update_id }, changed, notes)
    | _ => Except.ok ({ p with last_update_id := item.update_id }, changed, notes)
  else if normalizeMsg item.text = resetCmd then
    Except.ok ({ p with
                 holdings := [],
                 last_update_id := item.update_id }, true,
               notes ++ [Note.reset])
  else
    Except.ok ({ p with last_update_id := item.update_id }, changed, notes)

/-- The `for item in response.get('result', [])` loop. -/
def processUpdates (p : Portfolio) (changed : Bool) (notes : List Note) :
    List Update → Except (List Note) (Portfolio × Bool × List Note)
  | [] => Except.ok (p, changed, notes)
  | u :: rest =>
    match processUpdate p changed notes u with
    | Except.error e => Except.error e
    | Except.ok (p', c', n') => processUpdates p' c' n' rest

/-- Entry point `check_telegram_commands(portfolio)` applied to the list of updates
the transport delivered (the successful-`requests.get` path; on network
failure the source returns `(portfolio, False)` without touching the
state, which no claim concerns). -/
def check_telegram_commands (p : Portfolio) (response : List Update) :
    Except (List Note) (Portfolio × Bool × List Note) :=
  processUpdates p false [] response

/-! ## Market regime and per-holding decisions (`main`, lines 120–151)

A price history is the chronological list of daily closes actually
present for the instrument; a missing dictionary key / failed download
is `Option.none`. -/

/-- Indicator `ta.sma(close, length=...).iloc[-1]`.  `pandas_ta.sma` returns
`None` when the series is shorter than `length` (`verify_series`), so
only then is the last SMA value unavailable; otherwise it is the mean of
the last `length` closes (`rolling(length).mean()`). -/
def smaLast (closes : List ℚ) (length : Nat) : Option ℚ :=
  if closes.length < length then none
  else some ((closes.drop (closes.length - length)).sum / (length : ℚ))

/-- Regime gate `market_safe = nifty['Close'].iloc[-1] > nifty['SMA_200'].iloc[-1]`
(lines 123–124).  With an empty frame `iloc[-1]` raises, and with fewer
than 200 rows `SMA_200` is the scalar `None`, so the `>` comparison
raises `TypeError`; both abort the run: `Except.error`. -/
def marketSafeEval (niftyCloses : List ℚ) : Except Unit Bool :=
  match niftyCloses.getLast?, smaLast niftyCloses 200 with
  | some close, some sma => Except.ok (decide (close > sma))
  | _, _ => Except.error ()

/-- One line of the `YOUR POSITIONS` block: the decision the holdings
loop prints for one symbol. -/
inductive HoldingLine where
  | sellMarketCrash (symbol : String)
  | sellTrendBroken (symbol : String)
  | hold (symbol : String) (price : ℚ)
  | dataError (symbol : String)
deriving DecidableEq, Repr

/-- Whether a holdings-report line is a SELL of either kind (the two
sell lines the source can print). -/
def HoldingLine.isSellLine : HoldingLine → Bool
  | sellMarketCrash _ => true
  | sellTrendBroken _ => true
  | _ => false

/-- The body of `for h in holdings` (lines 134–149).  `series` is
`data[f"{sym}.NS"]['Close']` if the lookup succeeds, `none` if it
raises.  `current` and `sma` are computed inside the `try` *before* the
`market_safe` test, so any data failure lands in `except` and prints the
data-error line even when the market is unsafe.  Only then comes the
chain `not market_safe → SELL (Market Crash)`,
`current < sma → SELL (Trend Broken)`, else `HOLD`. -/
def holdingLine (market_safe : Bool) (series : Option (List ℚ))
    (symbol : String) : HoldingLine :=
  match series with
  | none => HoldingLine.dataError symbol
  | some closes =>
    match closes.getLast?, smaLast closes 200 with
    | some current, some sma =>
      if !market_safe then HoldingLine.sellMarketCrash symbol
      else if current < sma then HoldingLine.sellTrendBroken symbol
      else HoldingLine.hold symbol current
    | _, _ => HoldingLine.dataError symbol

/-! ## Momentum ranking and buy selection (`main`, lines 153–180) -/

/-- An entry of the `candidates` list: symbol (with `.NS` stripped) and
its 21-session momentum score. -/
structure Candidate where
  symbol : String
  score : ℚ
deriving DecidableEq, Repr

/-- Stable descending insertion: the new element goes after every
already-placed element whose score is `≥` its own.  Folding this over
the list is extensionally `candidates.sort(key=lambda x: x['score'],
reverse=True)` (line 173): Python's sort is stable and `reverse=True`
keeps equal elements in original order. -/
def insertDesc (c : Candidate) : List Candidate → List Candidate
  | [] => [c]
  | d :: ds => if c.score > d.score then c :: d :: ds else d :: insertDesc c ds

/-- The ranking: `candidates.sort(key=lambda x: x['score'], reverse=True)`. -/
def sortByScoreDesc (l : List Candidate) : List Candidate :=
  l.foldl (fun acc c => insertDesc c acc) []

/-- Decidable score-equality test, used to state sort stability. -/
def sameScore (s : ℚ) (c : Candidate) : Bool := decide (c.score = s)

/-- The selection loop (lines 175–180): walk the ranked candidates,
`break` once `count >= 2` (the literal `2`, not
`MAX_POSITIONS - len(holdings)`), skip symbols already held, emit the
rest. -/
def pickRecs (mySymbols : List String) : List Candidate → Nat → List Candidate
  | [], _ => []
  | c :: cs, count =>
    if 2 ≤ count then []
    else if mySymbols.contains c.symbol then pickRecs mySymbols cs count
    else c :: pickRecs mySymbols cs (count + 1)

/-- The whole buy-signal block: guarded by
`if market_safe and len(holdings) < MAX_POSITIONS` (line 154), then the
selection loop over the sorted candidates with
`my_symbols = [x['symbol'] for x in holdings]`. -/
def buySignals (market_safe : Bool) (holdings : List Position)
    (candidates : List Candidate) : List Candidate :=
  if market_safe && decide (holdings.length < MAX_POSITIONS) then
    pickRecs (holdings.map (fun h => h.symbol)) (sortByScoreDesc candidates) 0
  else []

/-! ### Claim C1 -/

/-- C1, counterexample.  The claim says a command with sequence number
`≤ portfolio.cursor` is ignored without side effect, and that with
cursor = 5 and inbound `{seq 3, BUY AAA 10}`, `{seq 6, BUY BBB 20}` only
the seq-6 command applies, leaving exactly one new position.  The loop
in `check_telegram_commands` never compares `update_id` with the stored
cursor, so on exactly that inbound batch *both* commands apply: holdings
gains two positions (AAA and BBB), two notifications are sent, and the
claim's "exactly one position" is false. -/
theorem C1_stale_command_applied_counterexample :
    check_telegram_commands ⟨25000, [], 5⟩ [⟨3, "/BUY AAA 10"⟩, ⟨6, "/BUY BBB 20"⟩] =
      Except.ok (⟨25000, [⟨"AAA", 10⟩, ⟨"BBB", 20⟩], 6⟩, true,
        [Note.buy "AAA" 10, Note.buy "BBB" 20]) ∧
    [Position.mk "AAA" 10, Position.mk "BBB" 20].length ≠ 1 := by
  decide

/-- C1, amended.  The processor applies every delivered command
regardless of its sequence number; commands with sequence ≤ cursor are
excluded only by the transport fetch (`offset = last_id + 1`).  Under a
transport honouring that offset, the cursor-5 scenario delivers only the
seq-6 command, which applies: cursor becomes 6 and holdings gains
exactly the one position (BBB, 20). -/
theorem C1_transport_filtered_scenario :
    check_telegram_commands ⟨25000, [], 5⟩ [⟨6, "/BUY BBB 20"⟩] =
      Except.ok (⟨25000, [⟨"BBB", 20⟩], 6⟩, true, [Note.buy "BBB" 20]) := by
  decide

/-! ### Claim C9 -/

/-- C9, counterexample.  The claim says every text not matching the
recognized `BUY <symbol> <shares>` / `SELL <symbol>` / `RESET` token
grammar is ignored.  The source matches by *string prefix*
(`message.startswith('/BUY')`), so the text `/BUYME AAA 5` — whose
command token `/BUYME` is not `BUY` — is treated as a BUY: holdings
gains (AAA, 5), `changed` is set and a notification is sent. -/
theorem C9_nongrammar_text_mutates_counterexample :
    check_telegram_commands ⟨25000, [], 0⟩ [⟨1, "/BUYME AAA 5"⟩] =
      Except.ok (⟨25000, [⟨"AAA", 5⟩], 1⟩, true, [Note.buy "AAA" 5]) ∧
    [Position.mk "AAA" 5] ≠ ([] : List Position) := by
  decide

/-- C9, amended.  Every inbound text whose stripped, upper-cased form
does not start with `/BUY`, does not start with `/SELL`, and is not
exactly `/RESET` is ignored: holdings and cash are unchanged, `changed`
keeps its value, no notification is emitted, and only the cursor
advances to the command's sequence number.  (Texts that merely *start*
with `/BUY` or `/SELL`, such as `/BUYME ...`, are treated as commands —
matching is by prefix, not by token.) -/
theorem C9_unrecognized_only_cursor (p : Portfolio) (changed : Bool)
    (notes : List Note) (u : Update)
    (hbuy : ¬ (buyCmd <+: normalizeMsg u.text))
    (hsell : ¬ (sellCmd <+: normalizeMsg u.text))
    (hreset : normalizeMsg u.text ≠ resetCmd) :
    processUpdate p changed notes u =
      Except.ok ({ p with last_update_id := u.update_id }, changed, notes) := by
  simp [processUpdate, hbuy, hsell, hreset]

/-- C9, witness: a chatty message on a non-empty portfolio only moves
the cursor. -/
theorem C9_unrecognized_only_cursor_witness :
    processUpdate ⟨25000, [⟨"AAA", 5⟩], 2⟩ false [] ⟨9, "WHAT IS UP"⟩ =
      Except.ok (⟨25000, [⟨"AAA", 5⟩], 9⟩, false, []) :=
  C9_unrecognized_only_cursor ⟨25000, [⟨"AAA", 5⟩], 2⟩ false [] ⟨9, "WHAT IS UP"⟩
    (by decide) (by decide) (by decide)

/-! ### Claim C10 -/

/-- C10, confirmed.  Any `/BUY`-prefixed text with at least three tokens
whose shares token parses as an integer appends a `Position` with
exactly that share count — the code imposes no lower bound, so zero and
negative counts are accepted — sets `changed = true` and emits the
notification. -/
theorem C10_buy_no_lower_bound (p : Portfolio) (changed : Bool) (notes : List Note)
    (u : Update) (cmd symbol sharesTok : String) (restTok : List String) (n : Int)
    (hbuy : buyCmd <+: normalizeMsg u.text)
    (hsplit : pySplit (normalizeMsg u.text) = cmd :: symbol :: sharesTok :: restTok)
    (hn : pyIntParse sharesTok = some n) :
    processUpdate p changed notes u =
      Except.ok ({ p with
                   holdings := p.holdings ++ [⟨symbol, n⟩],
                   last_update_id := u.update_id }, true,
                 notes ++ [Note.buy symbol n]) := by
  simp [processUpdate, hbuy, hsplit, hn]

/-- C10, witness: `/buy vedl -7` stores −7 shares and `/BUY X 0` stores
0 shares, both unchanged. -/
theorem C10_buy_no_lower_bound_witness :
    processUpdate ⟨25000, [], 0⟩ false [] ⟨4, "/buy vedl -7"⟩ =
      Except.ok (⟨25000, [⟨"VEDL", -7⟩], 4⟩, true, [Note.buy "VEDL" (-7)]) ∧
    processUpdate ⟨25000, [⟨"VEDL", -7⟩], 4⟩ true [Note.buy "VEDL" (-7)] ⟨5, "/BUY X 0"⟩ =
      Except.ok (⟨25000, [⟨"VEDL", -7⟩, ⟨"X", 0⟩], 5⟩, true,
        [Note.buy "VEDL" (-7), Note.buy "X" 0]) :=
  ⟨C10_buy_no_lower_bound _ _ _ _ "/BUY" "VEDL" "-7" [] (-7)
      (by decide) (by decide) (by decide),
   C10_buy_no_lower_bound _ _ _ _ "/BUY" "X" "0" [] 0
      (by decide) (by decide) (by decide)⟩

/-! ### Claim C3 -/

/-- C3, counterexample.  The claim says every BUY body with the wrong
argument count is silently dropped with the portfolio unchanged.  The
source only requires `len(parts) >= 3`, so `/BUY AAA 10 EXTRA` — three
arguments instead of the grammar's exactly two — is *applied* using the
first two: holdings changes. -/
theorem C3_extra_args_applied_counterexample :
    check_telegram_commands ⟨25000, [], 0⟩ [⟨1, "/BUY AAA 10 EXTRA"⟩] =
      Except.ok (⟨25000, [⟨"AAA", 10⟩], 1⟩, true, [Note.buy "AAA" 10]) ∧
    [Position.mk "AAA" 10] ≠ ([] : List Position) := by
  decide

/-- C3, amended.  For a `/BUY`-prefixed command: with fewer than three
tokens it is silently dropped — holdings and cash unchanged, the cursor
still advances to that command's sequence number, and the batch
continues with the remaining commands; with three or more tokens whose
shares token does *not* parse as an integer, `int(parts[2])` raises an
uncaught `ValueError` and the whole batch aborts (extra tokens beyond
the second argument are ignored, not rejected — see the
counterexample). -/
theorem C3_malformed_buy (p : Portfolio) (changed : Bool) (notes : List Note)
    (u : Update) (rest : List Update)
    (hbuy : buyCmd <+: normalizeMsg u.text) :
    ((pySplit (normalizeMsg u.text)).length < 3 →
      processUpdates p changed notes (u :: rest) =
        processUpdates { p with last_update_id := u.update_id } changed notes rest) ∧
    (∀ cmd symbol sharesTok restTok,
      pySplit (normalizeMsg u.text) = cmd :: symbol :: sharesTok :: restTok →
      pyIntParse sharesTok = none →
      processUpdates p changed notes (u :: rest) = Except.error notes) := by
  constructor
  · intro hlen
    rcases hps : pySplit (normalizeMsg u.text) with _ | ⟨a, _ | ⟨b, _ | ⟨c, d⟩⟩⟩
    · simp [processUpdates, processUpdate, hbuy, hps]
    · simp [processUpdates, processUpdate, hbuy, hps]
    · simp [processUpdates, processUpdate, hbuy, hps]
    · rw [hps] at hlen
      simp only [List.length_cons] at hlen
      omega
  · intro cmd symbol sharesTok restTok hsplit hnone
    simp [processUpdates, processUpdate, hbuy, hsplit, hnone]

/-- C3, witness: `/BUY AAA` (one argument) is dropped, the cursor moves
to 7, and the batch continues with the next command. -/
theorem C3_malformed_buy_witness :
    processUpdates ⟨25000, [], 0⟩ false [] [⟨7, "/BUY AAA"⟩, ⟨8, "/BUY BBB 5"⟩] =
      processUpdates ⟨25000, [], 7⟩ false [] [⟨8, "/BUY BBB 5"⟩] :=
  (C3_malformed_buy ⟨25000, [], 0⟩ false [] ⟨7, "/BUY AAA"⟩ [⟨8, "/BUY BBB 5"⟩]
      (by decide)).1 (by decide)

/-! ### Claim C6 -/

/-- Every non-raising branch of the loop body ends with
`portfolio['last_update_id'] = update_id`. -/
theorem processUpdate_sets_cursor {p : Portfolio} {changed : Bool} {notes : List Note}
    {u : Update} {p' : Portfolio} {c' : Bool} {n' : List Note}
    (h : processUpdate p changed notes u = Except.ok (p', c', n')) :
    p'.last_update_id = u.update_id := by
  unfold processUpdate at h
  repeat' split at h
  all_goals
    first
      | exact Except.noConfusion h
      | (simp only [Except.ok.injEq, Prod.mk.injEq] at h
         obtain ⟨h1, -⟩ := h
         rw [← h1])

/-- After a successful pass over the whole batch, the stored cursor is
the `update_id` of the *last* delivered update (or is untouched for an
empty batch) — not the maximum. -/
theorem processUpdates_cursor :
    ∀ (us : List Update) (p : Portfolio) (changed : Bool) (notes : List Note)
      (p' : Portfolio) (c' : Bool) (n' : List Note),
      processUpdates p changed notes us = Except.ok (p', c', n') →
      p'.last_update_id = ((us.getLast?).map Update.update_id).getD p.last_update_id := by
  intro us
  induction us with
  | nil =>
    intro p changed notes p' c' n' h
    simp only [processUpdates, Except.ok.injEq, Prod.mk.injEq] at h
    obtain ⟨h1, -⟩ := h
    simp [← h1]
  | cons u rest ih =>
    intro p changed notes p' c' n' h
    cases hu : processUpdate p changed notes u with
    | error e =>
      rw [processUpdates, hu] at h
      exact Except.noConfusion h
    | ok t =>
      obtain ⟨p1, c1, n1⟩ := t
      rw [processUpdates, hu] at h
      have hcur : p1.last_update_id = u.update_id := processUpdate_sets_cursor hu
      have htail := ih p1 c1 n1 p' c' n' h
      cases hr : rest with
      | nil =>
        subst hr
        simpa [hcur] using htail
      | cons v vs =>
        subst hr
        cases hw : (v :: vs).getLast? with
        | none => simp at hw
        | some w =>
          rw [hw] at htail
          simpa [List.getLast?_cons_cons, hw] using htail

/-- C6, counterexample.  The claim says the cursor always becomes
`max(sN, previous cursor)` and never decreases.  The loop stores the raw
`update_id` of each delivered item, so a delivered batch whose sequence
number is *below* the stored cursor (possible whenever the transport
redelivers) moves the cursor *down*: from 5 to 3 here, and
`3 ≠ max(3, 5)`. -/
theorem C6_cursor_decreases_counterexample :
    check_telegram_commands ⟨25000, [], 5⟩ [⟨3, "HELLO"⟩] =
      Except.ok (⟨25000, [], 3⟩, false, []) ∧
    ¬ ((3:Int) = max 3 5) ∧ ¬ ((5:Int) ≤ 3) := by
  refine ⟨by decide, by norm_num, by norm_num⟩

/-- C6, amended.  After a successful pass over a non-empty delivered
batch the cursor equals the sequence number of the *last* delivered
command; when every delivered sequence number exceeds the previous
cursor — which the `offset = cursor + 1` fetch guarantees for a
well-behaved transport — this equals `max(sN, previous cursor)` and the
cursor is non-decreasing. -/
theorem C6_cursor_last_delivered (p : Portfolio) (us : List Update) (p' : Portfolio)
    (c : Bool) (notes : List Note) (u : Update)
    (hok : check_telegram_commands p us = Except.ok (p', c, notes))
    (hlast : us.getLast? = some u) :
    p'.last_update_id = u.update_id ∧
    ((∀ v ∈ us, p.last_update_id < v.update_id) →
      p'.last_update_id = max u.update_id p.last_update_id ∧
      p.last_update_id ≤ p'.last_update_id) := by
  have h1 : p'.last_update_id = u.update_id := by
    have hgen := processUpdates_cursor us p false [] p' c notes hok
    rw [hlast] at hgen
    simpa using hgen
  refine ⟨h1, fun hall => ?_⟩
  have hu : p.last_update_id < u.update_id :=
    hall u (List.mem_of_getLast?_eq_some hlast)
  constructor
  · rw [h1, max_eq_left (le_of_lt hu)]
  · rw [h1]
    exact le_of_lt hu

/-- C6, witness: the well-behaved one-command batch seq 6 over cursor 5
lands on cursor 6 = max(6, 5) ≥ 5. -/
theorem C6_cursor_last_delivered_witness :
    (⟨25000, [], 6⟩ : Portfolio).last_update_id = (⟨6, "HELLO"⟩ : Update).update_id ∧
    (⟨25000, [], 6⟩ : Portfolio).last_update_id =
      max (6:Int) (⟨25000, [], 5⟩ : Portfolio).last_update_id ∧
    (⟨25000, [], 5⟩ : Portfolio).last_update_id ≤
      (⟨25000, [], 6⟩ : Portfolio).last_update_id := by
  have h := C6_cursor_last_delivered ⟨25000, [], 5⟩ [⟨6, "HELLO"⟩] ⟨25000, [], 6⟩
    false [] ⟨6, "HELLO"⟩ (by decide) (by decide)
  exact ⟨h.1, h.2 (by decide)⟩

/-! ### Claims C2, C4, C7: regime gate and holdings decisions -/

/-- Evaluation helper: the 200-session SMA of a constant-1 series of
length 200 is 1. -/
theorem smaLast_replicate_one :
    smaLast (List.replicate 200 (1:ℚ)) 200 = some 1 := by
  rw [smaLast, List.length_replicate, if_neg (lt_irrefl 200), Nat.sub_self,
    List.drop_zero, List.sum_replicate]
  norm_num

/-- Evaluation helper: the last element of the constant-1 series. -/
theorem getLast_replicate_one :
    (List.replicate 200 (1:ℚ)).getLast? = some 1 := by decide

/-- C2, counterexample.  The claim says `market_safe = false` forces
SELL ("market regime unsafe") even when the symbol's price data is
unavailable.  In the source the data lookup sits *inside* the `try`
*before* the `market_safe` test, so a failed lookup prints the
data-error line instead of the SELL line even in an unsafe market. -/
theorem C2_unsafe_without_data_counterexample :
    holdingLine false none "XXX" = HoldingLine.dataError "XXX" ∧
    holdingLine false none "XXX" ≠ HoldingLine.sellMarketCrash "XXX" := by
  decide

/-- C2, amended.  When `market_safe` is false and the position's price
data *is* available (last close and 200-SMA both computable), the
decision is SELL ("Market Crash") regardless of the position's own
trend status — the values of `current` and `sma` are unconstrained
here.  When the data lookup fails the line is a data error even in an
unsafe market (see the counterexample). -/
theorem C2_unsafe_market_sells_held (symbol : String) (closes : List ℚ)
    (current sma : ℚ) (hcur : closes.getLast? = some current)
    (hsma : smaLast closes 200 = some sma) :
    holdingLine false (some closes) symbol = HoldingLine.sellMarketCrash symbol := by
  simp [holdingLine, hcur, hsma]

/-- C2, witness: a 200-session constant series in an unsafe market is
sold. -/
theorem C2_unsafe_market_sells_held_witness :
    holdingLine false (some (List.replicate 200 (1:ℚ))) "XXX" =
      HoldingLine.sellMarketCrash "XXX" :=
  C2_unsafe_market_sells_held "XXX" (List.replicate 200 (1:ℚ)) 1 1
    getLast_replicate_one smaLast_replicate_one

/-- Evaluation helper: a strictly trending 200-session series — 199
closes at 1 and a last close of 2 — has last element 2. -/
theorem getLast_trending :
    (List.replicate 199 (1:ℚ) ++ [2]).getLast? = some 2 :=
  List.getLast?_concat _

/-- Evaluation helper: the 200-session SMA of that strictly trending
series is `201/200`, strictly below the last close 2, so the spec's
trend filter (`close > SMA`) passes strictly. -/
theorem smaLast_trending :
    smaLast (List.replicate 199 (1:ℚ) ++ [2]) 200 = some (201/200) := by
  have hlen : (List.replicate 199 (1:ℚ) ++ [2]).length = 200 := by simp
  rw [smaLast, hlen, if_neg (lt_irrefl 200), Nat.sub_self, List.drop_zero,
    List.sum_append, List.sum_replicate]
  norm_num

/-- C4, counterexample.  The claim says that during the rebalance period
(day-of-month ≤ 7) a held position outside the top-15 ranking is sold
with reason "rank dropped out of top-K".  The holdings loop has *no*
such rule: neither the calendar day nor any ranking is an input to the
decision.  A *strictly* trending position — last close 2 strictly above
its 200-session SMA `201/200`, so the spec's trend filter (`close >
SMA`) passes and rules 1–3 do not fire — is simply HELD: in particular
on day 3 with the symbol absent from every ranking, no sell line of any
kind is produced, refuting the claimed rank-based SELL. -/
theorem C4_no_rank_rule_counterexample :
    holdingLine true (some (List.replicate 199 (1:ℚ) ++ [2])) "ZZZ" =
      HoldingLine.hold "ZZZ" 2 ∧
    (201/200 : ℚ) < 2 ∧
    (holdingLine true (some (List.replicate 199 (1:ℚ) ++ [2])) "ZZZ").isSellLine
      = false := by
  have hcur := getLast_trending
  have hsma := smaLast_trending
  have hline : holdingLine true (some (List.replicate 199 (1:ℚ) ++ [2])) "ZZZ" =
      HoldingLine.hold "ZZZ" 2 := by
    simp only [holdingLine]
    rw [hcur, hsma]
    norm_num
  exact ⟨hline, by norm_num, by rw [hline]; rfl⟩

/-- C4, amended.  The source implements no rebalance-period or top-K
exit.  Whenever the market is safe, the position's data is available and
its trend filter passes (`current < sma` fails), the decision is HOLD —
independently of the calendar day-of-month and of any ranking, which are
not inputs to the holdings loop at all. -/
theorem C4_trending_position_always_held (symbol : String) (closes : List ℚ)
    (current sma : ℚ) (hcur : closes.getLast? = some current)
    (hsma : smaLast closes 200 = some sma) (htrend : ¬ current < sma) :
    holdingLine true (some closes) symbol = HoldingLine.hold symbol current := by
  simp [holdingLine, hcur, hsma, htrend]

/-- C4, witness: the strictly trending position (close 2 > SMA 201/200)
is held. -/
theorem C4_trending_position_always_held_witness :
    holdingLine true (some (List.replicate 199 (1:ℚ) ++ [2])) "YYY" =
      HoldingLine.hold "YYY" 2 :=
  C4_trending_position_always_held "YYY" (List.replicate 199 (1:ℚ) ++ [2]) 2 (201/200)
    getLast_trending smaLast_trending (by norm_num)

/-- C7, counterexample.  The claim says a benchmark history with fewer
than 200 observations yields `market_safe = false`.  With 199
observations `pandas_ta.sma` returns `None`, the `>` comparison raises
`TypeError` and the run aborts: the evaluation produces an error, never
the value `false`. -/
theorem C7_short_history_counterexample :
    marketSafeEval (List.replicate 199 (1:ℚ)) = Except.error () ∧
    marketSafeEval (List.replicate 199 (1:ℚ)) ≠ Except.ok false := by
  decide

/-- C7, amended.  With fewer than 200 benchmark observations the
market-safety expression does not evaluate to any Boolean: the SMA is
unavailable and the comparison raises, aborting the run.  (The run dying
before any decision is the only sense in which the gate "fails
closed".) -/
theorem C7_short_history_aborts (closes : List ℚ) (h : closes.length < 200) :
    marketSafeEval closes = Except.error () := by
  have hs : smaLast closes 200 = none := by rw [smaLast, if_pos h]
  unfold marketSafeEval
  rw [hs]
  cases closes.getLast? <;> rfl

/-- C7, witness: a 150-observation history aborts the evaluation. -/
theorem C7_short_history_aborts_witness :
    marketSafeEval (List.replicate 150 (1:ℚ)) = Except.error () :=
  C7_short_history_aborts (List.replicate 150 (1:ℚ)) (by decide)

/-! ### Claim C5 -/

/-- The selection loop emits at most `2 - count` further symbols: the
`break` fires as soon as `count` reaches the literal `2`. -/
theorem pickRecs_length_le (mySymbols : List String) :
    ∀ (cs : List Candidate) (count : Nat),
      (pickRecs mySymbols cs count).length ≤ 2 - count := by
  intro cs
  induction cs with
  | nil => intro count; simp [pickRecs]
  | cons c cs ih =>
    intro count
    simp only [pickRecs]
    split
    · simp
    · split
      · exact le_trans (ih count) (le_refl _)
      · have h2 := ih (count + 1)
        simp only [List.length_cons]
        omega

/-- C5, counterexample.  The claim bounds the number of BUY
recommendations by `max_positions - len(holdings)`.  The loop instead
breaks at the literal `2`: with one position held (so `1 < 2` lets the
block run and the claimed bound is `2 - 1 = 1`), two eligible non-held
candidates produce *two* recommendations. -/
theorem C5_two_recs_one_slot_counterexample :
    (buySignals true [⟨"HHH", 1⟩] [⟨"AAA", 10⟩, ⟨"BBB", 5⟩]).length = 2 ∧
    ¬ ((buySignals true [⟨"HHH", 1⟩] [⟨"AAA", 10⟩, ⟨"BBB", 5⟩]).length ≤
        MAX_POSITIONS - ([⟨"HHH", 1⟩] : List Position).length) := by
  decide

/-- C5, amended.  Whenever the buy block runs (market safe and holding
count < `MAX_POSITIONS`), the number of BUY recommendations never
exceeds `MAX_POSITIONS` itself (the hard-coded Top-2 cap); the cap is
*not* reduced by the current number of holdings.  (The bound trivially
also covers the runs where the block is skipped.) -/
theorem C5_buy_recs_le_max_positions (market_safe : Bool)
    (holdings : List Position) (candidates : List Candidate) :
    (buySignals market_safe holdings candidates).length ≤ MAX_POSITIONS := by
  rw [buySignals]
  split
  · simpa [MAX_POSITIONS] using
      pickRecs_length_le (holdings.map (fun h => h.symbol)) (sortByScoreDesc candidates) 0
  · simp

/-! ### Claim C8 -/

/-- Membership in a stable descending insertion. -/
theorem mem_insertDesc {a c : Candidate} :
    ∀ {l : List Candidate}, a ∈ insertDesc c l ↔ a = c ∨ a ∈ l := by
  intro l
  induction l with
  | nil => simp [insertDesc]
  | cons d ds ih =>
    simp only [insertDesc]
    split
    · simp [List.mem_cons]
    · simp only [List.mem_cons, ih]
      tauto

/-- Insertion preserves the descending-by-score pairwise invariant. -/
theorem insertDesc_sorted {c : Candidate} :
    ∀ {l : List Candidate},
      l.Pairwise (fun a b => b.score ≤ a.score) →
      (insertDesc c l).Pairwise (fun a b => b.score ≤ a.score) := by
  intro l hl
  induction l with
  | nil => simp [insertDesc]
  | cons d ds ih =>
    rw [List.pairwise_cons] at hl
    obtain ⟨hd, hds⟩ := hl
    simp only [insertDesc]
    split
    · rename_i hgt
      rw [List.pairwise_cons]
      refine ⟨?_, List.pairwise_cons.mpr ⟨hd, hds⟩⟩
      intro x hx
      rcases List.mem_cons.mp hx with rfl | hx'
      · exact le_of_lt hgt
      · exact le_trans (hd x hx') (le_of_lt hgt)
    · rename_i hng
      rw [List.pairwise_cons]
      refine ⟨?_, ih hds⟩
      intro x hx
      rcases mem_insertDesc.mp hx with rfl | hx'
      · exact le_of_not_lt hng
      · exact hd x hx'

/-- Inserting an element of a different score leaves a score-class
filter unchanged. -/
theorem filter_insertDesc_ne {c : Candidate} {s : ℚ} (hc : ¬ c.score = s) :
    ∀ (l : List Candidate),
      (insertDesc c l).filter (sameScore s) = l.filter (sameScore s) := by
  intro l
  induction l with
  | nil => simp [insertDesc, sameScore, hc]
  | cons d ds ih =>
    simp only [insertDesc]
    split
    · simp [List.filter_cons, sameScore, hc]
    · simp only [List.filter_cons, ih]

/-- Inserting an element of score `s` into a descending-sorted list
appends it to the back of the score-`s` class: insertion is stable. -/
theorem filter_insertDesc_eq {c : Candidate} {s : ℚ} (hc : c.score = s) :
    ∀ (l : List Candidate),
      l.Pairwise (fun a b => b.score ≤ a.score) →
      (insertDesc c l).filter (sameScore s) = l.filter (sameScore s) ++ [c] := by
  intro l
  induction l with
  | nil => intro _; simp [insertDesc, sameScore, hc]
  | cons d ds ih =>
    intro hp
    rw [List.pairwise_cons] at hp
    obtain ⟨hd, hds⟩ := hp
    simp only [insertDesc]
    split
    · rename_i hgt
      have hnone : (d :: ds).filter (sameScore s) = [] := by
        rw [List.filter_eq_nil_iff]
        intro x hx
        rcases List.mem_cons.mp hx with rfl | hx'
        · simp only [sameScore, decide_eq_true_eq]
          exact ne_of_lt (hc ▸ hgt)
        · simp only [sameScore, decide_eq_true_eq]
          exact ne_of_lt (lt_of_le_of_lt (hd x hx') (hc ▸ hgt))
      rw [List.filter_cons_of_pos (by simp [sameScore, hc]), hnone]
      rfl
    · rename_i hng
      by_cases hdm : sameScore s d = true
      · rw [List.filter_cons_of_pos hdm, List.filter_cons_of_pos hdm, ih hds]
        rfl
      · rw [List.filter_cons_of_neg (by simpa using hdm),
          List.filter_cons_of_neg (by simpa using hdm), ih hds]

/-- Folding stable insertions over the input preserves every score-class
filter, given a sorted accumulator. -/
theorem filter_foldl_insertDesc {s : ℚ} :
    ∀ (l acc : List Candidate),
      acc.Pairwise (fun a b => b.score ≤ a.score) →
      (l.foldl (fun acc c => insertDesc c acc) acc).filter (sameScore s) =
        acc.filter (sameScore s) ++ l.filter (sameScore s)
  | [], acc, _ => by simp
  | c :: cs, acc, hacc => by
    simp only [List.foldl_cons]
    rw [filter_foldl_insertDesc cs (insertDesc c acc) (insertDesc_sorted hacc)]
    by_cases hc : c.score = s
    · rw [filter_insertDesc_eq hc acc hacc,
        List.filter_cons_of_pos (by simp [sameScore, hc]), List.append_assoc]
      rfl
    · rw [filter_insertDesc_ne hc acc,
        List.filter_cons_of_neg (by simp [sameScore, hc])]

/-- The fold keeps the accumulator sorted throughout. -/
theorem foldl_insertDesc_sorted :
    ∀ (l acc : List Candidate),
      acc.Pairwise (fun a b => b.score ≤ a.score) →
      (l.foldl (fun acc c => insertDesc c acc) acc).Pairwise
        (fun a b => b.score ≤ a.score)
  | [], acc, h => by simpa
  | c :: cs, acc, h => by
    simp only [List.foldl_cons]
    exact foldl_insertDesc_sorted cs (insertDesc c acc) (insertDesc_sorted h)

/-- C8, confirmed.  The ranking `candidates.sort(key=lambda x:
x['score'], reverse=True)` is sorted by non-increasing momentum score,
and for every score value the candidates carrying that score appear in
the ranking exactly in their original universe iteration order (the sort
is stable; Python's `list.sort` with `reverse=True` keeps equal elements
in original order, as does the stable insertion modelled here). -/
theorem C8_ranking_sorted_and_stable (l : List Candidate) :
    (sortByScoreDesc l).Pairwise (fun a b => b.score ≤ a.score) ∧
    ∀ s : ℚ, (sortByScoreDesc l).filter (sameScore s) = l.filter (sameScore s) := by
  constructor
  · exact foldl_insertDesc_sorted l [] (List.Pairwise.nil)
  · intro s
    simpa using filter_foldl_insertDesc l [] (List.Pairwise.nil)

end MyTrader
